import Mathlib

/-!
Verification of the logon/logoff event ingestor (recieve_logonlogoff.py).

The development shallowly embeds the handler: Python/JSON values become the
inductive type JVal, the SSM parameter store and the S3 client become
function-valued parameters, and an uncaught Python exception is an
Except.error result.  Response bodies are modelled as the JSON value that
the source passes to json.dumps.  Machine-level glue (boto3 client
construction, the cp932 encoding of the stored bytes, the HTTP transport)
is outside the model; every branch and check of the handler itself is
embedded.
-/

/-! ## Characters and digits -/

/-- Character for the decimal digit n (n at most 9). -/
def dChar (n : Nat) : Char := Char.ofNat (48 + n)

/-- Numeric value of a decimal digit character. -/
def digitVal (c : Char) : Nat := c.toNat - 48

/-- Model of the regex class \d restricted to ASCII digits. -/
def isDigitCh (c : Char) : Bool := decide (48 ≤ c.toNat ∧ c.toNat ≤ 57)

/-- Model of the regex class [A-Za-z0-9]. -/
def isAlnumCh (c : Char) : Bool :=
  decide ((65 ≤ c.toNat ∧ c.toNat ≤ 90) ∨ (97 ≤ c.toNat ∧ c.toNat ≤ 122) ∨
    (48 ≤ c.toNat ∧ c.toNat ≤ 57))

/-- Byte count of one character under UTF-8, as Python encode("utf-8") produces. -/
def charUtf8Size (c : Char) : Nat :=
  if c.toNat ≤ 0x7F then 1 else if c.toNat ≤ 0x7FF then 2
  else if c.toNat ≤ 0xFFFF then 3 else 4

/-- Length in bytes of the UTF-8 encoding of a string: len(s.encode("utf-8")). -/
def utf8ByteLen (s : String) : Nat := (s.data.map charUtf8Size).sum

/-! ## Calendar model (datetime.date / datetime.datetime) -/

/-- Gregorian leap-year rule used by datetime.date. -/
def isLeap (y : Nat) : Bool := (y % 4 == 0 && y % 100 != 0) || y % 400 == 0

/-- Number of days of month mo in year y, as datetime.date validates. -/
def daysInMonth (y mo : Nat) : Nat :=
  if mo = 2 then (if isLeap y then 29 else 28)
  else if mo = 4 ∨ mo = 6 ∨ mo = 9 ∨ mo = 11 then 30
  else 31

/-- A parsed date-time, the result of datetime.datetime.strptime. -/
structure DT where
  year : Nat
  month : Nat
  day : Nat
  hour : Nat
  minute : Nat
  second : Nat
deriving DecidableEq, Repr

/-- Range checks performed by the datetime constructor: year 1..9999 (the four
digit field already bounds it above), month 1..12, day within the month, hour
0..23, minute and second 0..59 (strptime feeds second 60 and 61 to the
constructor, which rejects them). -/
def validDT (y mo da ho mi se : Nat) : Bool :=
  decide (1 ≤ y) && decide (1 ≤ mo) && decide (mo ≤ 12) && decide (1 ≤ da) &&
  decide (da ≤ daysInMonth y mo) && decide (ho ≤ 23) && decide (mi ≤ 59) &&
  decide (se ≤ 59)

/-- Parse of the exact two-digit layout YYYY-MM-DD HH:MM:SS that
strptime("%Y-%m-%d %H:%M:%S") receives in this program (the handler regex
admits only this width; strptime tolerance for narrower fields is never
exercised).  none models the ValueError raised by strptime. -/
def parseTsList (l : List Char) : Option DT :=
  match l with
  | [y1, y2, y3, y4, a1, m1, m2, a2, d1, d2, a3, h1, h2, a4, n1, n2, a5, s1, s2] =>
    if (a1 == '-' && a2 == '-' && a3 == ' ' && a4 == ':' && a5 == ':') &&
        [y1, y2, y3, y4, m1, m2, d1, d2, h1, h2, n1, n2, s1, s2].all isDigitCh then
      let y := ((digitVal y1 * 10 + digitVal y2) * 10 + digitVal y3) * 10 + digitVal y4
      let mo := digitVal m1 * 10 + digitVal m2
      let da := digitVal d1 * 10 + digitVal d2
      let ho := digitVal h1 * 10 + digitVal h2
      let mi := digitVal n1 * 10 + digitVal n2
      let se := digitVal s1 * 10 + digitVal s2
      if validDT y mo da ho mi se then some ⟨y, mo, da, ho, mi, se⟩ else none
    else none
  | _ => none

/-- The parse applied to the character data of the string. -/
def parseTimestamp (s : String) : Option DT := parseTsList s.data

/-- dt.date() - datetime.timedelta(days=1).  none models the OverflowError
raised when the subtraction falls below date.min = 0001-01-01. -/
def prevDay (y mo da : Nat) : Option (Nat × Nat × Nat) :=
  if 1 < da then some (y, mo, da - 1)
  else if 1 < mo then some (y, mo - 1, daysInMonth y (mo - 1))
  else if 1 < y then some (y - 1, 12, 31)
  else none

/-- Two zero-padded decimal digits. -/
def pad2 (n : Nat) : List Char := [dChar (n / 10), dChar (n % 10)]

/-- Four zero-padded decimal digits. -/
def pad4 (n : Nat) : List Char :=
  [dChar (n / 1000), dChar (n / 100 % 10), dChar (n / 10 % 10), dChar (n % 10)]

/-- strftime("%Y%m%d") with the year zero-padded to four digits. -/
def fmtYMD (y mo da : Nat) : String := String.mk (pad4 y ++ pad2 mo ++ pad2 da)

/-- Lexicographic comparison of datetime.time triples: dt.time() < boundary. -/
def timeLt (h1 m1 s1 h2 m2 s2 : Nat) : Bool :=
  decide (h1 < h2) ||
    (h1 == h2 && (decide (m1 < m2) || (m1 == m2 && decide (s1 < s2))))

/-- Shallow embedding of compute_base_date_str (source lines 7-24): parse the
timestamp, subtract one day when the time of day is before 05:00:00, format as
yyyyMMdd.  Except.error models the exception propagating out (ValueError from
strptime, OverflowError from the date subtraction). -/
def compute_base_date_str (s : String) : Except String String :=
  match parseTimestamp s with
  | none => Except.error "time data does not match format"
  | some dt =>
    if timeLt dt.hour dt.minute dt.second 5 0 0 then
      match prevDay dt.year dt.month dt.day with
      | some (py, pm, pd) => Except.ok (fmtYMD py pm pd)
      | none => Except.error "date value out of range"
    else Except.ok (fmtYMD dt.year dt.month dt.day)

/-- Canonical print of a date-time in the YYYY-MM-DD HH:MM:SS layout; used to
range over exactly the strings the timestamp grammar admits. -/
def fmtTs (y mo da ho mi se : Nat) : String :=
  String.mk (pad4 y ++ '-' :: (pad2 mo ++ '-' :: (pad2 da ++ ' ' ::
    (pad2 ho ++ ':' :: (pad2 mi ++ ':' :: pad2 se)))))

/-! ## The two regex checks of the handler -/

/-- re.fullmatch(r"[A-Za-z0-9]\x7b1,15\x7d", s): between 1 and 15 characters, all
ASCII alphanumeric. -/
def matchesUseridRe (s : String) : Bool :=
  decide (1 ≤ s.data.length ∧ s.data.length ≤ 15) && s.data.all isAlnumCh

/-- Character class at position i of the timestamp regex
\d\d\d\d-\d\d-\d\d \d\d:\d\d:\d\d. -/
def tsCharOk (i : Nat) (c : Char) : Bool :=
  if i = 4 ∨ i = 7 then c == '-'
  else if i = 10 then c == ' '
  else if i = 13 ∨ i = 16 then c == ':'
  else isDigitCh c

/-- Check every character from position i on against tsCharOk. -/
def tsCheckFrom (i : Nat) : List Char → Bool
  | [] => true
  | c :: cs => tsCharOk i c && tsCheckFrom (i + 1) cs

/-- re.fullmatch of the timestamp regex (source line 136). -/
def matchesTsRe (s : String) : Bool :=
  (s.data.length == 19) && tsCheckFrom 0 s.data

/-! ## Key derivation -/

/-- Character action of timestamp.replace(' ', 'T').replace(':', '-'); both
replacements map one character to one character, so their composition acts
pointwise. -/
def safeChar (c : Char) : Char := if c = ' ' then 'T' else if c = ':' then '-' else c

/-- safe_ts (source line 161). -/
def safeTs (ts : String) : String := String.mk (ts.data.map safeChar)

/-- The object key f-string of source line 162. -/
def mkKey (pfx d u t ts : String) : String :=
  pfx ++ "/date=" ++ d ++ "/" ++ u ++ "_" ++ t ++ "_" ++ safeTs ts ++ ".json"

/-! ## Python/JSON values -/

/-- JSON values as Python holds them after json.loads; also the payload
dictionaries themselves.  JSON numbers are modelled as integers; no claim
depends on float formatting.  An object is an association list looked up on
the first matching key (Python dicts hold each key once). -/
inductive JVal where
  | jnull : JVal
  | jbool : Bool → JVal
  | jnum : Int → JVal
  | jstr : String → JVal
  | jarr : List JVal → JVal
  | jobj : List (String × JVal) → JVal

/-- A single apostrophe, the quote character of Python repr. -/
def pyQuote : String := String.singleton (Char.ofNat 39)

/-- Decimal digits of a natural number, most significant first, onto acc. -/
def natDigitsAux (n : Nat) (acc : List Char) : List Char :=
  if h : n < 10 then dChar n :: acc
  else natDigitsAux (n / 10) (dChar (n % 10) :: acc)
termination_by n
decreasing_by exact Nat.div_lt_self (by omega) (by omega)

/-- Decimal print of a natural number. -/
def natStr (n : Nat) : String := String.mk (natDigitsAux n [])

/-- Python str() of an integer. -/
def pyIntStr (n : Int) : String :=
  if n < 0 then "-" ++ natStr n.natAbs else natStr n.natAbs

mutual
/-- Python repr of a JSON value (string escaping inside reprs is immaterial to
every claim; only the leading character of container and number reprs is ever
used). -/
def pyRepr : JVal → String
  | JVal.jnull => "None"
  | JVal.jbool b => if b then "True" else "False"
  | JVal.jnum n => pyIntStr n
  | JVal.jstr s => pyQuote ++ s ++ pyQuote
  | JVal.jarr l => "[" ++ String.intercalate ", " (pyReprList l) ++ "]"
  | JVal.jobj l => "\x7b" ++ String.intercalate ", " (pyReprPairs l) ++ "\x7d"

/-- Reprs of the elements of a list value. -/
def pyReprList : List JVal → List String
  | [] => []
  | v :: vs => pyRepr v :: pyReprList vs

/-- Reprs of the entries of an object value. -/
def pyReprPairs : List (String × JVal) → List String
  | [] => []
  | (k, v) :: vs => (pyQuote ++ k ++ pyQuote ++ ": " ++ pyRepr v) :: pyReprPairs vs
end

/-- Python str() of a JSON value: identity on strings, repr otherwise. -/
def pyStr (v : JVal) : String :=
  match v with
  | JVal.jstr s => s
  | v => pyRepr v

/-- The membership test str(log_type) in ("logon", "logoff") of source line 83. -/
def codeTypeOk (v : JVal) : Bool :=
  pyStr v == "logon" || pyStr v == "logoff"

/-! ## Dictionaries -/

/-- Lookup in an object association list. -/
def jLookup : List (String × JVal) → String → Option JVal
  | [], _ => none
  | (k, v) :: rest, key => if k == key then some v else jLookup rest key

/-- payload.get(k): None both for a missing key and for an explicit null. -/
def jGetD (l : List (String × JVal)) (k : String) : JVal :=
  (jLookup l k).getD JVal.jnull

/-- payload.get(k) in (None, ""): equality against None or the empty string. -/
def isMissingVal (v : JVal) : Bool :=
  match v with
  | JVal.jnull => true
  | JVal.jstr s => s == ""
  | _ => false

/-- The list comprehension of source line 72. -/
def missingKeysOf (l : List (String × JVal)) : List String :=
  ["type", "userid", "timestamp"].filter (fun k => isMissingVal (jGetD l k))

/-! ## The handler -/

/-- A Lambda response dictionary: statusCode plus the value serialized into
the body by json.dumps. -/
structure Resp where
  statusCode : Nat
  body : JVal

/-- Message of the AttributeError raised when .get is called on a value that
is not a dict. -/
def attrGetError : String := "AttributeError: object has no attribute get"

/-- The stored record of source lines 165-169 (str() on values that are
already strings is the identity). -/
def dataOf (u t ts : String) : JVal :=
  JVal.jobj [("userid", JVal.jstr u), ("type", JVal.jstr t),
    ("timestamp", JVal.jstr ts)]

/-- Source lines 158-199: fetch the prefix, build the key, fetch the bucket
name, attempt the put, and assemble the 500 or 200 response.  gp is the SSM
get_parameter collaborator (get_prefix and get_bucket_name, lines 27-37,
immediately return its value), put the S3 put_object collaborator; an
Except.error from gp propagates out of the do-block exactly as the uncaught
Python exception would. -/
def persistRecord (gp : String → Except String String)
    (put : String → String → JVal → Except String Unit)
    (u t ts d : String) : Except String Resp := do
  let pfx ← gp "/logonlogoff/prefixkey"
  let object_key := mkKey pfx d u t ts
  let data := dataOf u t ts
  let bucket_name ← gp "/logonlogoff/s3bucket"
  match put bucket_name object_key data with
  | Except.error e =>
    pure ⟨500, JVal.jobj [("message", JVal.jstr "failed to put object to S3"),
      ("error", JVal.jstr e)]⟩
  | Except.ok _ =>
    pure ⟨200, JVal.jobj [("bucket", JVal.jstr bucket_name),
      ("key", JVal.jstr object_key), ("date", JVal.jstr d)]⟩

/-- Source lines 66-199 after payload extraction: the validation pipeline and
the persistence stage.  payload.get on a non-dict payload raises
AttributeError at line 67; the four .get call sites share that failure mode,
factored here into the outer match. -/
def validate_and_store (gp : String → Except String String)
    (put : String → String → JVal → Except String Unit)
    (payload : JVal) : Except String Resp :=
  match payload with
  | JVal.jobj pl =>
    let log_type := jGetD pl "type"
    let userid := jGetD pl "userid"
    let timestamp := jGetD pl "timestamp"
    let missing := missingKeysOf pl
    if missing ≠ [] then
      pure ⟨400, JVal.jobj [("message", JVal.jstr "missing required fields"),
        ("missing", JVal.jarr (missing.map JVal.jstr))]⟩
    else if !codeTypeOk log_type then
      pure ⟨400, JVal.jobj [("message", JVal.jstr "invalid type"),
        ("allowed", JVal.jarr [JVal.jstr "logon", JVal.jstr "logoff"]),
        ("value", log_type)]⟩
    else
      match userid with
      | JVal.jstr u =>
        if !matchesUseridRe u then
          pure ⟨400, JVal.jobj [("message", JVal.jstr "invalid userid"),
            ("rule", JVal.jstr "alphanumeric only, length <= 15"),
            ("value", JVal.jstr u)]⟩
        else if utf8ByteLen u > 15 then
          pure ⟨400, JVal.jobj [("message", JVal.jstr "invalid userid length"),
            ("rule", JVal.jstr "<= 15 bytes"), ("value", JVal.jstr u)]⟩
        else
          match timestamp with
          | JVal.jstr ts =>
            if !matchesTsRe ts then
              pure ⟨400, JVal.jobj [("message", JVal.jstr "invalid timestamp format"),
                ("expected", JVal.jstr "YYYY-MM-DD HH:MM:SS"),
                ("value", JVal.jstr ts)]⟩
            else
              match compute_base_date_str ts with
              | Except.error e =>
                pure ⟨400, JVal.jobj [("message", JVal.jstr "invalid timestamp value"),
                  ("expected", JVal.jstr "YYYY-MM-DD HH:MM:SS"),
                  ("error", JVal.jstr e)]⟩
              | Except.ok date_str => persistRecord gp put u (pyStr log_type) ts date_str
          | v =>
            pure ⟨400, JVal.jobj [("message", JVal.jstr "invalid timestamp type"),
              ("expected", JVal.jstr "string"), ("value", v)]⟩
      | v =>
        pure ⟨400, JVal.jobj [("message", JVal.jstr "invalid userid type"),
          ("expected", JVal.jstr "string"), ("value", v)]⟩
  | _ => Except.error attrGetError

/-- The rejection, if any, that the validation pipeline produces for a
payload; none when all eight rules pass (or when the payload is not a dict,
where no rule is ever reached).  The branch conditions are literally those of
validate_and_store, with the persistence stage replaced by none. -/
def rejectionOf (payload : JVal) : Option Resp :=
  match payload with
  | JVal.jobj pl =>
    let log_type := jGetD pl "type"
    let userid := jGetD pl "userid"
    let timestamp := jGetD pl "timestamp"
    let missing := missingKeysOf pl
    if missing ≠ [] then
      some ⟨400, JVal.jobj [("message", JVal.jstr "missing required fields"),
        ("missing", JVal.jarr (missing.map JVal.jstr))]⟩
    else if !codeTypeOk log_type then
      some ⟨400, JVal.jobj [("message", JVal.jstr "invalid type"),
        ("allowed", JVal.jarr [JVal.jstr "logon", JVal.jstr "logoff"]),
        ("value", log_type)]⟩
    else
      match userid with
      | JVal.jstr u =>
        if !matchesUseridRe u then
          some ⟨400, JVal.jobj [("message", JVal.jstr "invalid userid"),
            ("rule", JVal.jstr "alphanumeric only, length <= 15"),
            ("value", JVal.jstr u)]⟩
        else if utf8ByteLen u > 15 then
          some ⟨400, JVal.jobj [("message", JVal.jstr "invalid userid length"),
            ("rule", JVal.jstr "<= 15 bytes"), ("value", JVal.jstr u)]⟩
        else
          match timestamp with
          | JVal.jstr ts =>
            if !matchesTsRe ts then
              some ⟨400, JVal.jobj [("message", JVal.jstr "invalid timestamp format"),
                ("expected", JVal.jstr "YYYY-MM-DD HH:MM:SS"),
                ("value", JVal.jstr ts)]⟩
            else
              match compute_base_date_str ts with
              | Except.error e =>
                some ⟨400, JVal.jobj [("message", JVal.jstr "invalid timestamp value"),
                  ("expected", JVal.jstr "YYYY-MM-DD HH:MM:SS"),
                  ("error", JVal.jstr e)]⟩
              | Except.ok _ => none
          | v =>
            some ⟨400, JVal.jobj [("message", JVal.jstr "invalid timestamp type"),
              ("expected", JVal.jstr "string"), ("value", v)]⟩
      | v =>
        some ⟨400, JVal.jobj [("message", JVal.jstr "invalid userid type"),
          ("expected", JVal.jstr "string"), ("value", v)]⟩
  | _ => none

/-- Source lines 40-57: unwrap the transport envelope.  jsonLoads is the
json.loads collaborator, none modelling JSONDecodeError (which falls back to
top-level extraction).  A non-dict event would raise at event.get. -/
def parse_event_payload (jsonLoads : String → Option JVal)
    (event : Option JVal) : Except String JVal :=
  match event with
  | none => pure (JVal.jobj [])
  | some (JVal.jobj ev) =>
    (match jLookup ev "body" with
     | some (JVal.jstr s) =>
       match jsonLoads s with
       | some v => pure v
       | none => pure (JVal.jobj [("type", jGetD ev "type"),
         ("userid", jGetD ev "userid"), ("timestamp", jGetD ev "timestamp")])
     | _ => pure (JVal.jobj [("type", jGetD ev "type"),
       ("userid", jGetD ev "userid"), ("timestamp", jGetD ev "timestamp")]))
  | some _ => Except.error attrGetError

/-- The whole handler, source lines 60-199. -/
def recieve_logonlogoff (jsonLoads : String → Option JVal)
    (gp : String → Except String String)
    (put : String → String → JVal → Except String Unit)
    (event : Option JVal) : Except String Resp := do
  let payload ← parse_event_payload jsonLoads event
  validate_and_store gp put payload

/-- A flat payload dict carrying the three fields. -/
def payloadOf (u t ts : String) : JVal :=
  JVal.jobj [("type", JVal.jstr t), ("userid", JVal.jstr u),
    ("timestamp", JVal.jstr ts)]

/-! ## Spec-side validator (for the refinement claims) -/

/-- Modelled from the spec, section 4.2 rule 2: the type field must equal
exactly "logon" or "logoff" by string comparison. -/
def specTypeOk (t : JVal) : Bool :=
  match t with
  | JVal.jstr s => s == "logon" || s == "logoff"
  | _ => false

/-- Modelled from the spec, section 4.2: the message of the first violated
rule among rules 2-8 in the fixed order (type enum, userid type, userid
charset, userid byte length, timestamp type, timestamp format, timestamp
calendar validity); none when none of them is violated. -/
def specFirstMsg (t u ts : JVal) : Option String :=
  if !specTypeOk t then some "invalid type"
  else
    match u with
    | JVal.jstr su =>
      if !matchesUseridRe su then some "invalid userid"
      else if utf8ByteLen su > 15 then some "invalid userid length"
      else
        match ts with
        | JVal.jstr sts =>
          if !matchesTsRe sts then some "invalid timestamp format"
          else if (parseTimestamp sts).isNone then some "invalid timestamp value"
          else none
        | _ => some "invalid timestamp type"
    | _ => some "invalid userid type"

/-! ## Concrete collaborators for closed runs -/

/-- Parameter store answering every lookup with a fixed value. -/
def gpTest : String → Except String String := fun _ => Except.ok "pre"

/-- Object store whose put always succeeds. -/
def putOkTest : String → String → JVal → Except String Unit := fun _ _ _ => Except.ok ()

/-- json.loads stand-in that never parses. -/
def jlNone : String → Option JVal := fun _ => none

/-- json.loads stand-in at the single point "[1]", which is valid JSON whose
value is the one-element array. -/
def jlArr : String → Option JVal :=
  fun s => if s == "[1]" then some (JVal.jarr [JVal.jnum 1]) else none

/-- Field lookup in a response body. -/
def bodyLookup (r : Resp) (k : String) : Option JVal :=
  match r.body with
  | JVal.jobj l => jLookup l k
  | _ => none

/-- The message string of a response body, when present. -/
def bodyMessage (r : Resp) : Option String :=
  match bodyLookup r "message" with
  | some (JVal.jstr m) => some m
  | _ => none

/-- Parameter store failing every lookup. -/
def gpFail : String → Except String String := fun _ => Except.error "boom"

/-- Parameter store holding the two configured keys. -/
def gpParams : String → Except String String := fun n =>
  if n == "/logonlogoff/prefixkey" then Except.ok "pre"
  else if n == "/logonlogoff/s3bucket" then Except.ok "bkt"
  else Except.error "ParameterNotFound"

/-- Object store whose put always fails. -/
def putFail : String → String → JVal → Except String Unit :=
  fun _ _ _ => Except.error "S3 down"

/-- The C2 scenario event: a flat payload with month 13 in the timestamp. -/
def evC2 : Option JVal :=
  some (JVal.jobj [("type", JVal.jstr "logon"), ("userid", JVal.jstr "user001"),
    ("timestamp", JVal.jstr "2025-13-01 05:00:00")])

/-! ## Helper lemmas: digits and characters -/

theorem isDigitCh_toNat {c : Char} (h : isDigitCh c = true) :
    48 ≤ c.toNat ∧ c.toNat ≤ 57 := by
  simpa [isDigitCh] using h

theorem isAlnumCh_toNat {c : Char} (h : isAlnumCh c = true) :
    (65 ≤ c.toNat ∧ c.toNat ≤ 90) ∨ (97 ≤ c.toNat ∧ c.toNat ≤ 122) ∨
      (48 ≤ c.toNat ∧ c.toNat ≤ 57) := by
  simpa [isAlnumCh] using h

theorem dChar_isDigit {k : Nat} (h : k ≤ 9) : isDigitCh (dChar k) = true := by
  interval_cases k <;> decide

theorem digitVal_dChar {k : Nat} (h : k ≤ 9) : digitVal (dChar k) = k := by
  interval_cases k <;> decide

theorem dChar_digitVal {c : Char} (h : isDigitCh c = true) : dChar (digitVal c) = c := by
  obtain ⟨h1, _⟩ := isDigitCh_toNat h
  unfold dChar digitVal
  rw [Nat.add_sub_cancel' h1]
  exact Char.ofNat_toNat c

theorem digitVal_le {c : Char} (h : isDigitCh c = true) : digitVal c ≤ 9 := by
  obtain ⟨h1, h2⟩ := isDigitCh_toNat h
  unfold digitVal
  omega

theorem safeChar_digit {c : Char} (h : isDigitCh c = true) : safeChar c = c := by
  have hne1 : ¬ c = ' ' := by intro hc; subst hc; exact absurd h (by decide)
  have hne2 : ¬ c = ':' := by intro hc; subst hc; exact absurd h (by decide)
  simp [safeChar, hne1, hne2]

theorem charUtf8Size_alnum {c : Char} (h : isAlnumCh c = true) : charUtf8Size c = 1 := by
  have hr := isAlnumCh_toNat h
  have hle : c.toNat ≤ 0x7F := by rcases hr with h | h | h <;> omega
  simp [charUtf8Size, hle]

/-! ## Helper lemmas: the userid charset rule -/

theorem matchesUseridRe_spec {u : String} (h : matchesUseridRe u = true) :
    1 ≤ u.data.length ∧ u.data.length ≤ 15 ∧ ∀ c ∈ u.data, isAlnumCh c = true := by
  unfold matchesUseridRe at h
  simp only [Bool.and_eq_true, decide_eq_true_eq, List.all_eq_true] at h
  exact ⟨h.1.1, h.1.2, h.2⟩

theorem sum_map_utf8_of_alnum :
    ∀ (l : List Char), (∀ c ∈ l, isAlnumCh c = true) →
      (l.map charUtf8Size).sum = l.length := by
  intro l
  induction l with
  | nil => intro _; rfl
  | cons c cs ih =>
    intro h
    have hc := charUtf8Size_alnum (h c (by simp))
    have := ih (fun d hd => h d (by simp [hd]))
    simp [hc, this]
    omega

theorem utf8ByteLen_userid {u : String} (h : matchesUseridRe u = true) :
    utf8ByteLen u ≤ 15 := by
  obtain ⟨_, h2, h3⟩ := matchesUseridRe_spec h
  unfold utf8ByteLen
  rw [sum_map_utf8_of_alnum u.data h3]
  exact h2

theorem userid_ne_empty {u : String} (h : matchesUseridRe u = true) : u ≠ "" := by
  intro hu
  subst hu
  exact absurd h (by decide)

theorem userid_no_underscore {u : String} (h : matchesUseridRe u = true) :
    '_' ∉ u.data := by
  intro hm
  have := (matchesUseridRe_spec h).2.2 _ hm
  exact absurd this (by decide)

/-! ## Helper lemmas: the timestamp regex -/

theorem tsCheckFrom_get :
    ∀ (l : List Char) (i : Nat), tsCheckFrom i l = true →
      ∀ (j : Nat) (hj : j < l.length), tsCharOk (i + j) (l.get ⟨j, hj⟩) = true := by
  intro l
  induction l with
  | nil => intro i _ j hj; simp at hj
  | cons c cs ih =>
    intro i h j hj
    unfold tsCheckFrom at h
    rw [Bool.and_eq_true] at h
    cases j with
    | zero => simpa using h.1
    | succ j' =>
      have harith : i + (j' + 1) = (i + 1) + j' := by omega
      rw [harith]
      exact ih (i + 1) h.2 j' (by simpa using hj)

theorem matchesTsRe_spec {s : String} (h : matchesTsRe s = true) :
    s.data.length = 19 ∧
      ∀ (i : Nat) (hi : i < s.data.length), tsCharOk i (s.data.get ⟨i, hi⟩) = true := by
  unfold matchesTsRe at h
  rw [Bool.and_eq_true, beq_iff_eq] at h
  refine ⟨h.1, fun i hi => ?_⟩
  have := tsCheckFrom_get s.data 0 h.2 i hi
  simpa using this

theorem ts_ne_empty {s : String} (h : matchesTsRe s = true) : s ≠ "" := by
  intro hs
  subst hs
  exact absurd h (by decide)

/-! ## Helper lemmas: str() of a JSON value -/

theorem natDigitsAux_head :
    ∀ (n : Nat) (acc : List Char), ∃ k rest, k ≤ 9 ∧
      natDigitsAux n acc = dChar k :: rest := by
  intro n
  induction n using Nat.strong_induction_on with
  | _ n ih =>
    intro acc
    by_cases h : n < 10
    · exact ⟨n, acc, by omega, by rw [natDigitsAux]; simp [h]⟩
    · obtain ⟨k, rest, hk, heq⟩ :=
        ih (n / 10) (Nat.div_lt_self (by omega) (by omega)) (dChar (n % 10) :: acc)
      refine ⟨k, rest, hk, ?_⟩
      rw [natDigitsAux]
      simpa [h] using heq

theorem pyIntStr_head (n : Int) :
    ∃ c rest, (pyIntStr n).data = c :: rest ∧
      (c = '-' ∨ ∃ k, k ≤ 9 ∧ c = dChar k) := by
  unfold pyIntStr
  by_cases h : n < 0
  · obtain ⟨k, rest, hk, heq⟩ := natDigitsAux_head n.natAbs []
    refine ⟨'-', (natStr n.natAbs).data, ?_, Or.inl rfl⟩
    simp [h, String.data_append]
  · obtain ⟨k, rest, hk, heq⟩ := natDigitsAux_head n.natAbs []
    refine ⟨dChar k, rest, ?_, Or.inr ⟨k, hk, rfl⟩⟩
    simp [h, natStr, heq]

theorem pyStr_enum_iff (v : JVal) :
    (pyStr v = "logon" ∨ pyStr v = "logoff") ↔
      (v = JVal.jstr "logon" ∨ v = JVal.jstr "logoff") := by
  constructor
  · intro h
    cases v with
    | jstr s =>
      simp only [pyStr] at h
      rcases h with rfl | rfl
      · exact Or.inl rfl
      · exact Or.inr rfl
    | jnull =>
      exfalso; rcases h with h | h <;> exact absurd h (by decide)
    | jbool b =>
      exfalso
      cases b <;> rcases h with h | h <;>
        simp only [pyStr, pyRepr] at h <;> exact absurd h (by decide)
    | jnum n =>
      exfalso
      obtain ⟨c, rest, hdata, hc⟩ := pyIntStr_head n
      have hps : pyStr (JVal.jnum n) = pyIntStr n := rfl
      rw [hps] at h
      have hcl : c = 'l' := by
        rcases h with h | h <;> rw [h] at hdata <;>
          exact (List.cons.inj hdata.symm).1
      rcases hc with rfl | ⟨k, hk, rfl⟩
      · exact absurd hcl (by decide)
      · revert hcl; interval_cases k <;> decide
    | jarr l =>
      exfalso
      have hps : pyStr (JVal.jarr l) =
          "[" ++ String.intercalate ", " (pyReprList l) ++ "]" := rfl
      rw [hps] at h
      have hbr : ("[" : String).data = ['['] := rfl
      rcases h with h | h <;>
      · have hd := congrArg String.data h
        rw [String.data_append, String.data_append, hbr] at hd
        simp only [List.cons_append, List.nil_append, List.append_assoc] at hd
        have : '[' = 'l' := (List.cons.inj hd).1
        exact absurd this (by decide)
    | jobj l =>
      exfalso
      have hps : pyStr (JVal.jobj l) =
          "\x7b" ++ String.intercalate ", " (pyReprPairs l) ++ "\x7d" := rfl
      rw [hps] at h
      have hbr : ("\x7b" : String).data = ['\x7b'] := rfl
      rcases h with h | h <;>
      · have hd := congrArg String.data h
        rw [String.data_append, String.data_append, hbr] at hd
        simp only [List.cons_append, List.nil_append, List.append_assoc] at hd
        have : '\x7b' = 'l' := (List.cons.inj hd).1
        exact absurd this (by decide)
  · rintro (rfl | rfl)
    · exact Or.inl rfl
    · exact Or.inr rfl

/-! ## Helper lemmas: the 05:00 boundary -/

theorem timeLt_five (ho mi se : Nat) : timeLt ho mi se 5 0 0 = decide (ho < 5) := by
  unfold timeLt
  have h1 : decide (mi < 0) = false := by simp
  have h2 : decide (se < 0) = false := by simp
  rw [h1, h2]
  by_cases h : ho = 5
  · subst h; simp
  · have hbe : (ho == 5) = false := by simp [h]
    rw [hbe]
    simp

theorem daysInMonth_le (y mo : Nat) : daysInMonth y mo ≤ 31 := by
  unfold daysInMonth
  split
  · split <;> omega
  · split <;> omega

theorem parse_fmtTs {y mo da ho mi se : Nat}
    (hy : 1 ≤ y) (hy2 : y ≤ 9999) (hmo : 1 ≤ mo) (hmo2 : mo ≤ 12)
    (hda : 1 ≤ da) (hda2 : da ≤ daysInMonth y mo) (hho : ho ≤ 23)
    (hmi : mi ≤ 59) (hse : se ≤ 59) :
    parseTimestamp (fmtTs y mo da ho mi se) = some ⟨y, mo, da, ho, mi, se⟩ := by
  have hda31 : da ≤ 31 := le_trans hda2 (daysInMonth_le y mo)
  have q1 : y / 1000 ≤ 9 := by omega
  have q2 : y / 100 % 10 ≤ 9 := by omega
  have q3 : y / 10 % 10 ≤ 9 := by omega
  have q4 : y % 10 ≤ 9 := by omega
  have q5 : mo / 10 ≤ 9 := by omega
  have q6 : mo % 10 ≤ 9 := by omega
  have q7 : da / 10 ≤ 9 := by omega
  have q8 : da % 10 ≤ 9 := by omega
  have q9 : ho / 10 ≤ 9 := by omega
  have q10 : ho % 10 ≤ 9 := by omega
  have q11 : mi / 10 ≤ 9 := by omega
  have q12 : mi % 10 ≤ 9 := by omega
  have q13 : se / 10 ≤ 9 := by omega
  have q14 : se % 10 ≤ 9 := by omega
  have hdata : (fmtTs y mo da ho mi se).data =
      dChar (y / 1000) :: dChar (y / 100 % 10) :: dChar (y / 10 % 10) :: dChar (y % 10) ::
      '-' :: dChar (mo / 10) :: dChar (mo % 10) ::
      '-' :: dChar (da / 10) :: dChar (da % 10) ::
      ' ' :: dChar (ho / 10) :: dChar (ho % 10) ::
      ':' :: dChar (mi / 10) :: dChar (mi % 10) ::
      ':' :: dChar (se / 10) :: dChar (se % 10) :: [] := rfl
  unfold parseTimestamp
  rw [hdata]
  simp only [parseTsList, List.all_cons, List.all_nil,
    dChar_isDigit q1, dChar_isDigit q2, dChar_isDigit q3, dChar_isDigit q4,
    dChar_isDigit q5, dChar_isDigit q6, dChar_isDigit q7, dChar_isDigit q8,
    dChar_isDigit q9, dChar_isDigit q10, dChar_isDigit q11, dChar_isDigit q12,
    dChar_isDigit q13, dChar_isDigit q14,
    digitVal_dChar q1, digitVal_dChar q2, digitVal_dChar q3, digitVal_dChar q4,
    digitVal_dChar q5, digitVal_dChar q6, digitVal_dChar q7, digitVal_dChar q8,
    digitVal_dChar q9, digitVal_dChar q10, digitVal_dChar q11, digitVal_dChar q12,
    digitVal_dChar q13, digitVal_dChar q14,
    beq_self_eq_true, Bool.and_true, Bool.true_and, and_self, if_true]
  have ey : ((y / 1000 * 10 + y / 100 % 10) * 10 + y / 10 % 10) * 10 + y % 10 = y := by
    omega
  have emo : mo / 10 * 10 + mo % 10 = mo := by omega
  have eda : da / 10 * 10 + da % 10 = da := by omega
  have eho : ho / 10 * 10 + ho % 10 = ho := by omega
  have emi : mi / 10 * 10 + mi % 10 = mi := by omega
  have ese : se / 10 * 10 + se % 10 = se := by omega
  rw [ey, emo, eda, eho, emi, ese]
  have hv : validDT y mo da ho mi se = true := by
    unfold validDT
    simp only [Bool.and_eq_true, decide_eq_true_eq]
    exact ⟨⟨⟨⟨⟨⟨⟨hy, hmo⟩, hmo2⟩, hda⟩, hda2⟩, hho⟩, hmi⟩, hse⟩
  rw [hv]
  simp

theorem fmtTs_data (y mo da ho mi se : Nat) :
    (fmtTs y mo da ho mi se).data =
      dChar (y / 1000) :: dChar (y / 100 % 10) :: dChar (y / 10 % 10) :: dChar (y % 10) ::
      '-' :: dChar (mo / 10) :: dChar (mo % 10) ::
      '-' :: dChar (da / 10) :: dChar (da % 10) ::
      ' ' :: dChar (ho / 10) :: dChar (ho % 10) ::
      ':' :: dChar (mi / 10) :: dChar (mi % 10) ::
      ':' :: dChar (se / 10) :: dChar (se % 10) :: [] := rfl

theorem parse_inv {s : String} {dt : DT} (h : parseTimestamp s = some dt) :
    s = fmtTs dt.year dt.month dt.day dt.hour dt.minute dt.second := by
  unfold parseTimestamp parseTsList at h
  split at h
  case _ y1 y2 y3 y4 a1 m1 m2 a2 d1 d2 a3 hh1 hh2 a4 n1 n2 a5 s1 s2 heq =>
    split at h
    case isTrue hcond =>
      simp only [] at h
      split at h
      case isTrue hv =>
        injection h with hdt
        simp only [Bool.and_eq_true, List.all_cons, List.all_nil, beq_iff_eq,
          and_true] at hcond
        obtain ⟨⟨⟨⟨⟨ha1, ha2⟩, ha3⟩, ha4⟩, ha5⟩, hg1, hg2, hg3, hg4, hg5, hg6, hg7,
          hg8, hg9, hg10, hg11, hg12, hg13, hg14⟩ := hcond
        subst ha1; subst ha2; subst ha3; subst ha4; subst ha5
        subst hdt
        have b1 := digitVal_le hg1
        have b2 := digitVal_le hg2
        have b3 := digitVal_le hg3
        have b4 := digitVal_le hg4
        have b5 := digitVal_le hg5
        have b6 := digitVal_le hg6
        have b7 := digitVal_le hg7
        have b8 := digitVal_le hg8
        have b9 := digitVal_le hg9
        have b10 := digitVal_le hg10
        have b11 := digitVal_le hg11
        have b12 := digitVal_le hg12
        have b13 := digitVal_le hg13
        have b14 := digitVal_le hg14
        have hdc1 := dChar_digitVal hg1
        have hdc2 := dChar_digitVal hg2
        have hdc3 := dChar_digitVal hg3
        have hdc4 := dChar_digitVal hg4
        have hdc5 := dChar_digitVal hg5
        have hdc6 := dChar_digitVal hg6
        have hdc7 := dChar_digitVal hg7
        have hdc8 := dChar_digitVal hg8
        have hdc9 := dChar_digitVal hg9
        have hdc10 := dChar_digitVal hg10
        have hdc11 := dChar_digitVal hg11
        have hdc12 := dChar_digitVal hg12
        have hdc13 := dChar_digitVal hg13
        have hdc14 := dChar_digitVal hg14
        apply String.ext
        rw [heq, fmtTs_data]
        have e1 : dChar ((((digitVal y1 * 10 + digitVal y2) * 10 + digitVal y3) * 10 +
            digitVal y4) / 1000) = y1 := by
          rw [show (((digitVal y1 * 10 + digitVal y2) * 10 + digitVal y3) * 10 +
            digitVal y4) / 1000 = digitVal y1 from by omega]
          exact hdc1
        have e2 : dChar ((((digitVal y1 * 10 + digitVal y2) * 10 + digitVal y3) * 10 +
            digitVal y4) / 100 % 10) = y2 := by
          rw [show (((digitVal y1 * 10 + digitVal y2) * 10 + digitVal y3) * 10 +
            digitVal y4) / 100 % 10 = digitVal y2 from by omega]
          exact hdc2
        have e3 : dChar ((((digitVal y1 * 10 + digitVal y2) * 10 + digitVal y3) * 10 +
            digitVal y4) / 10 % 10) = y3 := by
          rw [show (((digitVal y1 * 10 + digitVal y2) * 10 + digitVal y3) * 10 +
            digitVal y4) / 10 % 10 = digitVal y3 from by omega]
          exact hdc3
        have e4 : dChar ((((digitVal y1 * 10 + digitVal y2) * 10 + digitVal y3) * 10 +
            digitVal y4) % 10) = y4 := by
          rw [show (((digitVal y1 * 10 + digitVal y2) * 10 + digitVal y3) * 10 +
            digitVal y4) % 10 = digitVal y4 from by omega]
          exact hdc4
        have e5 : dChar ((digitVal m1 * 10 + digitVal m2) / 10) = m1 := by
          rw [show (digitVal m1 * 10 + digitVal m2) / 10 = digitVal m1 from by omega]
          exact hdc5
        have e6 : dChar ((digitVal m1 * 10 + digitVal m2) % 10) = m2 := by
          rw [show (digitVal m1 * 10 + digitVal m2) % 10 = digitVal m2 from by omega]
          exact hdc6
        have e7 : dChar ((digitVal d1 * 10 + digitVal d2) / 10) = d1 := by
          rw [show (digitVal d1 * 10 + digitVal d2) / 10 = digitVal d1 from by omega]
          exact hdc7
        have e8 : dChar ((digitVal d1 * 10 + digitVal d2) % 10) = d2 := by
          rw [show (digitVal d1 * 10 + digitVal d2) % 10 = digitVal d2 from by omega]
          exact hdc8
        have e9 : dChar ((digitVal hh1 * 10 + digitVal hh2) / 10) = hh1 := by
          rw [show (digitVal hh1 * 10 + digitVal hh2) / 10 = digitVal hh1 from by omega]
          exact hdc9
        have e10 : dChar ((digitVal hh1 * 10 + digitVal hh2) % 10) = hh2 := by
          rw [show (digitVal hh1 * 10 + digitVal hh2) % 10 = digitVal hh2 from by omega]
          exact hdc10
        have e11 : dChar ((digitVal n1 * 10 + digitVal n2) / 10) = n1 := by
          rw [show (digitVal n1 * 10 + digitVal n2) / 10 = digitVal n1 from by omega]
          exact hdc11
        have e12 : dChar ((digitVal n1 * 10 + digitVal n2) % 10) = n2 := by
          rw [show (digitVal n1 * 10 + digitVal n2) % 10 = digitVal n2 from by omega]
          exact hdc12
        have e13 : dChar ((digitVal s1 * 10 + digitVal s2) / 10) = s1 := by
          rw [show (digitVal s1 * 10 + digitVal s2) / 10 = digitVal s1 from by omega]
          exact hdc13
        have e14 : dChar ((digitVal s1 * 10 + digitVal s2) % 10) = s2 := by
          rw [show (digitVal s1 * 10 + digitVal s2) % 10 = digitVal s2 from by omega]
          exact hdc14
        rw [e1, e2, e3, e4, e5, e6, e7, e8, e9, e10, e11, e12, e13, e14]
      case isFalse hv => exact absurd h (by simp)
    case isFalse hcond => exact absurd h (by simp)
  case _ =>
    exact absurd h (by simp)

/-! ## Claim C1 -/

/-- C1 (amended): for every timestamp string of the YYYY-MM-DD HH:MM:SS form
that parses as a real calendar date-time (such strings are exactly the fmtTs
images, by the two round-trip conjuncts), compute_base_date_str returns the
calendar date minus one day formatted as yyyyMMdd when the time of day is
strictly before 05:00:00 and the calendar date itself otherwise — except on
the single date 0001-01-01 before 05:00:00, where the one-day subtraction
underflows date.min and the function raises OverflowError instead of
returning; the three example mappings of the spec hold exactly. -/
theorem C1_base_date_boundary :
    (∀ y mo da ho mi se : Nat, 1 ≤ y → y ≤ 9999 → 1 ≤ mo → mo ≤ 12 → 1 ≤ da →
      da ≤ daysInMonth y mo → ho ≤ 23 → mi ≤ 59 → se ≤ 59 →
      parseTimestamp (fmtTs y mo da ho mi se) = some ⟨y, mo, da, ho, mi, se⟩ ∧
      (ho < 5 →
        ((y = 1 ∧ mo = 1 ∧ da = 1) →
          compute_base_date_str (fmtTs y mo da ho mi se) =
            Except.error "date value out of range") ∧
        (∀ py pm pd : Nat, prevDay y mo da = some (py, pm, pd) →
          compute_base_date_str (fmtTs y mo da ho mi se) =
            Except.ok (fmtYMD py pm pd))) ∧
      (5 ≤ ho →
        compute_base_date_str (fmtTs y mo da ho mi se) = Except.ok (fmtYMD y mo da))) ∧
    (∀ (s : String) (dt : DT), parseTimestamp s = some dt →
      s = fmtTs dt.year dt.month dt.day dt.hour dt.minute dt.second) ∧
    compute_base_date_str "2025-01-01 05:00:00" = Except.ok "20250101" ∧
    compute_base_date_str "2025-01-02 04:59:00" = Except.ok "20250101" ∧
    compute_base_date_str "2025-01-01 04:59:00" = Except.ok "20241231" := by
  refine ⟨?_, fun s dt h => parse_inv h, rfl, rfl, rfl⟩
  intro y mo da ho mi se hy hy2 hmo hmo2 hda hda2 hho hmi hse
  have hp := parse_fmtTs hy hy2 hmo hmo2 hda hda2 hho hmi hse
  refine ⟨hp, ?_, ?_⟩
  · intro h5
    have hlt : timeLt ho mi se 5 0 0 = true := by
      rw [timeLt_five]
      simpa using h5
    constructor
    · rintro ⟨rfl, rfl, rfl⟩
      unfold compute_base_date_str
      rw [hp]
      simp only [hlt, if_true]
      rfl
    · intro py pm pd hprev
      unfold compute_base_date_str
      rw [hp]
      simp only [hlt, if_true]
      rw [hprev]
  · intro h5
    have hlt : timeLt ho mi se 5 0 0 = false := by
      rw [timeLt_five]
      simp
      omega
    unfold compute_base_date_str
    rw [hp]
    simp only [hlt]
    rfl

/-- C1 witness: the boundary rule evaluated at 2025-07-15 04:30:00, whose
partition date is the previous day 20250714. -/
theorem C1_base_date_boundary_witness :
    compute_base_date_str (fmtTs 2025 7 15 4 30 0) = Except.ok (fmtYMD 2025 7 14) :=
  ((C1_base_date_boundary.1 2025 7 15 4 30 0 (by decide) (by decide) (by decide)
    (by decide) (by decide) (by decide) (by decide) (by decide) (by decide)).2.1
    (by decide)).2 2025 7 14 rfl

/-- C1 counterexample: the string 0001-01-01 04:59:00 is of the required form
and parses as a real calendar date-time, yet compute_base_date_str raises
OverflowError (dt.date() - timedelta(days=1) falls below date.min) instead of
returning the previous calendar date formatted as yyyyMMdd. -/
theorem C1_overflow_counterexample :
    parseTimestamp "0001-01-01 04:59:00" = some ⟨1, 1, 1, 4, 59, 0⟩ ∧
    compute_base_date_str "0001-01-01 04:59:00" =
      Except.error "date value out of range" :=
  ⟨rfl, rfl⟩

theorem valid_run {u t ts d : String}
    (ht : t = "logon" ∨ t = "logoff") (hu : matchesUseridRe u = true)
    (hts : matchesTsRe ts = true) (hd : compute_base_date_str ts = Except.ok d)
    (gp : String → Except String String)
    (put : String → String → JVal → Except String Unit) :
    validate_and_store gp put (payloadOf u t ts) = persistRecord gp put u t ts d := by
  have hubeq : (u == "") = false := by simpa using userid_ne_empty hu
  have htbeq : (ts == "") = false := by simpa using ts_ne_empty hts
  have hbyte : ¬ utf8ByteLen u > 15 := by
    have := utf8ByteLen_userid hu
    omega
  rcases ht with rfl | rfl <;>
    simp [validate_and_store, payloadOf, jGetD, jLookup, missingKeysOf,
      isMissingVal, pyStr, codeTypeOk, hu, hts, hd, hubeq, htbeq, hbyte]


theorem rejection_run {pl : List (String × JVal)} {r : Resp}
    (h : rejectionOf (JVal.jobj pl) = some r)
    (gp : String → Except String String)
    (put : String → String → JVal → Except String Unit) :
    validate_and_store gp put (JVal.jobj pl) = Except.ok r := by
  simp only [rejectionOf] at h
  simp only [validate_and_store]
  by_cases c1 : missingKeysOf pl = []
  · rw [if_neg (by simp [c1])] at h ⊢
    by_cases c2 : codeTypeOk (jGetD pl "type") = true
    · rw [if_neg (by simp [c2])] at h ⊢
      cases hu0 : jGetD pl "userid" with
      | jstr u =>
        simp only [hu0] at h ⊢
        by_cases c3 : matchesUseridRe u = true
        · rw [if_neg (by simp [c3])] at h ⊢
          by_cases c4 : utf8ByteLen u > 15
          · rw [if_pos c4] at h ⊢
            exact congrArg Except.ok (Option.some.inj h)
          · rw [if_neg c4] at h ⊢
            cases ht0 : jGetD pl "timestamp" with
            | jstr ts =>
              simp only [ht0] at h ⊢
              by_cases c5 : matchesTsRe ts = true
              · rw [if_neg (by simp [c5])] at h ⊢
                cases hc : compute_base_date_str ts with
                | ok d =>
                  simp only [hc] at h
                  exact absurd h (by simp)
                | error e =>
                  simp only [hc] at h ⊢
                  exact congrArg Except.ok (Option.some.inj h)
              · have c5f : matchesTsRe ts = false := by
                  revert c5; cases matchesTsRe ts <;> simp
                rw [if_pos (by simp [c5f])] at h ⊢
                exact congrArg Except.ok (Option.some.inj h)
            | jnull =>
              simp only [ht0] at h ⊢
              exact congrArg Except.ok (Option.some.inj h)
            | jbool b =>
              simp only [ht0] at h ⊢
              exact congrArg Except.ok (Option.some.inj h)
            | jnum n =>
              simp only [ht0] at h ⊢
              exact congrArg Except.ok (Option.some.inj h)
            | jarr l =>
              simp only [ht0] at h ⊢
              exact congrArg Except.ok (Option.some.inj h)
            | jobj l2 =>
              simp only [ht0] at h ⊢
              exact congrArg Except.ok (Option.some.inj h)
        · have c3f : matchesUseridRe u = false := by
            revert c3; cases matchesUseridRe u <;> simp
          rw [if_pos (by simp [c3f])] at h ⊢
          exact congrArg Except.ok (Option.some.inj h)
      | jnull =>
        simp only [hu0] at h ⊢
        exact congrArg Except.ok (Option.some.inj h)
      | jbool b =>
        simp only [hu0] at h ⊢
        exact congrArg Except.ok (Option.some.inj h)
      | jnum n =>
        simp only [hu0] at h ⊢
        exact congrArg Except.ok (Option.some.inj h)
      | jarr l =>
        simp only [hu0] at h ⊢
        exact congrArg Except.ok (Option.some.inj h)
      | jobj l2 =>
        simp only [hu0] at h ⊢
        exact congrArg Except.ok (Option.some.inj h)
    · have c2f : codeTypeOk (jGetD pl "type") = false := by
        revert c2; cases codeTypeOk (jGetD pl "type") <;> simp
      rw [if_pos (by simp [c2f])] at h ⊢
      exact congrArg Except.ok (Option.some.inj h)
  · rw [if_pos c1] at h ⊢
    exact congrArg Except.ok (Option.some.inj h)

theorem bind_ok_embed {α β : Type} (a : α) (f : α → Except String β) :
    (Except.ok a : Except String α) >>= f = f a := rfl

theorem bind_error_embed {α β : Type} (e : String) (f : α → Except String β) :
    (Except.error e : Except String α) >>= f = (Except.error e : Except String β) := rfl

theorem persist_gp_error1 {gp : String → Except String String}
    {put : String → String → JVal → Except String Unit} {u t ts d e : String}
    (h : gp "/logonlogoff/prefixkey" = Except.error e) :
    persistRecord gp put u t ts d = Except.error e := by
  unfold persistRecord
  rw [h]
  rfl

theorem persist_gp_error2 {gp : String → Except String String}
    {put : String → String → JVal → Except String Unit} {u t ts d pfx e : String}
    (h1 : gp "/logonlogoff/prefixkey" = Except.ok pfx)
    (h2 : gp "/logonlogoff/s3bucket" = Except.error e) :
    persistRecord gp put u t ts d = Except.error e := by
  unfold persistRecord
  rw [h1]
  simp only [bind_ok_embed]
  rw [h2]
  rfl

theorem persist_run {gp : String → Except String String}
    {put : String → String → JVal → Except String Unit} {u t ts d pfx bkt : String}
    (h1 : gp "/logonlogoff/prefixkey" = Except.ok pfx)
    (h2 : gp "/logonlogoff/s3bucket" = Except.ok bkt) :
    persistRecord gp put u t ts d =
      match put bkt (mkKey pfx d u t ts) (dataOf u t ts) with
      | Except.error e => Except.ok ⟨500, JVal.jobj
          [("message", JVal.jstr "failed to put object to S3"),
           ("error", JVal.jstr e)]⟩
      | Except.ok _ => Except.ok ⟨200, JVal.jobj
          [("bucket", JVal.jstr bkt),
           ("key", JVal.jstr (mkKey pfx d u t ts)),
           ("date", JVal.jstr d)]⟩ := by
  unfold persistRecord
  rw [h1]
  simp only [bind_ok_embed]
  rw [h2]
  simp only [bind_ok_embed]
  cases put bkt (mkKey pfx d u t ts) (dataOf u t ts) <;> rfl

theorem run_cases {pl : List (String × JVal)} {r : Resp}
    {gp : String → Except String String}
    {put : String → String → JVal → Except String Unit}
    (h : validate_and_store gp put (JVal.jobj pl) = Except.ok r) :
    (missingKeysOf pl ≠ [] ∧
      r = ⟨400, JVal.jobj [("message", JVal.jstr "missing required fields"),
        ("missing", JVal.jarr ((missingKeysOf pl).map JVal.jstr))]⟩) ∨
    (r = ⟨400, JVal.jobj [("message", JVal.jstr "invalid type"),
        ("allowed", JVal.jarr [JVal.jstr "logon", JVal.jstr "logoff"]),
        ("value", jGetD pl "type")]⟩) ∨
    (r = ⟨400, JVal.jobj [("message", JVal.jstr "invalid userid type"),
        ("expected", JVal.jstr "string"), ("value", jGetD pl "userid")]⟩) ∨
    (∃ u, jGetD pl "userid" = JVal.jstr u ∧ matchesUseridRe u = false ∧
      r = ⟨400, JVal.jobj [("message", JVal.jstr "invalid userid"),
        ("rule", JVal.jstr "alphanumeric only, length <= 15"),
        ("value", JVal.jstr u)]⟩) ∨
    (∃ u, jGetD pl "userid" = JVal.jstr u ∧ matchesUseridRe u = true ∧
      utf8ByteLen u > 15 ∧
      r = ⟨400, JVal.jobj [("message", JVal.jstr "invalid userid length"),
        ("rule", JVal.jstr "<= 15 bytes"), ("value", JVal.jstr u)]⟩) ∨
    (r = ⟨400, JVal.jobj [("message", JVal.jstr "invalid timestamp type"),
        ("expected", JVal.jstr "string"), ("value", jGetD pl "timestamp")]⟩) ∨
    (∃ ts, jGetD pl "timestamp" = JVal.jstr ts ∧
      r = ⟨400, JVal.jobj [("message", JVal.jstr "invalid timestamp format"),
        ("expected", JVal.jstr "YYYY-MM-DD HH:MM:SS"), ("value", JVal.jstr ts)]⟩) ∨
    (∃ e, r = ⟨400, JVal.jobj [("message", JVal.jstr "invalid timestamp value"),
        ("expected", JVal.jstr "YYYY-MM-DD HH:MM:SS"), ("error", JVal.jstr e)]⟩) ∨
    (∃ e, r = ⟨500, JVal.jobj [("message", JVal.jstr "failed to put object to S3"),
        ("error", JVal.jstr e)]⟩) ∨
    (∃ bkt key date, r = ⟨200, JVal.jobj [("bucket", JVal.jstr bkt),
        ("key", JVal.jstr key), ("date", JVal.jstr date)]⟩) := by
  simp only [validate_and_store] at h
  by_cases c1 : missingKeysOf pl = []
  · rw [if_neg (by simp [c1])] at h
    by_cases c2 : codeTypeOk (jGetD pl "type") = true
    · rw [if_neg (by simp [c2])] at h
      cases hu0 : jGetD pl "userid" with
      | jstr u =>
        simp only [hu0] at h
        by_cases c3 : matchesUseridRe u = true
        · rw [if_neg (by simp [c3])] at h
          by_cases c4 : utf8ByteLen u > 15
          · rw [if_pos c4] at h
            exact Or.inr (Or.inr (Or.inr (Or.inr (Or.inl
              ⟨u, rfl, c3, c4, (Except.ok.inj h).symm⟩))))
          · rw [if_neg c4] at h
            cases ht0 : jGetD pl "timestamp" with
            | jstr ts =>
              simp only [ht0] at h
              by_cases c5 : matchesTsRe ts = true
              · rw [if_neg (by simp [c5])] at h
                cases hc : compute_base_date_str ts with
                | ok d =>
                  simp only [hc] at h
                  cases hgp1 : gp "/logonlogoff/prefixkey" with
                  | error e =>
                    rw [persist_gp_error1 hgp1] at h
                    exact absurd h (by simp)
                  | ok pfx =>
                    cases hgp2 : gp "/logonlogoff/s3bucket" with
                    | error e =>
                      rw [persist_gp_error2 hgp1 hgp2] at h
                      exact absurd h (by simp)
                    | ok bkt =>
                      rw [persist_run hgp1 hgp2] at h
                      cases hput : put bkt (mkKey pfx d u (pyStr (jGetD pl "type")) ts)
                          (dataOf u (pyStr (jGetD pl "type")) ts) with
                      | error e =>
                        rw [hput] at h
                        exact Or.inr (Or.inr (Or.inr (Or.inr (Or.inr (Or.inr (Or.inr
                          (Or.inr (Or.inl ⟨e, (Except.ok.inj h).symm⟩))))))))
                      | ok u0 =>
                        rw [hput] at h
                        exact Or.inr (Or.inr (Or.inr (Or.inr (Or.inr (Or.inr (Or.inr
                          (Or.inr (Or.inr ⟨bkt, mkKey pfx d u (pyStr (jGetD pl "type")) ts,
                            d, (Except.ok.inj h).symm⟩))))))))
                | error e =>
                  simp only [hc] at h
                  exact Or.inr (Or.inr (Or.inr (Or.inr (Or.inr (Or.inr (Or.inr
                    (Or.inl ⟨e, (Except.ok.inj h).symm⟩)))))))
              · have c5f : matchesTsRe ts = false := by
                  revert c5; cases matchesTsRe ts <;> simp
                rw [if_pos (by simp [c5f])] at h
                exact Or.inr (Or.inr (Or.inr (Or.inr (Or.inr (Or.inr (Or.inl
                  ⟨ts, rfl, (Except.ok.inj h).symm⟩))))))
            | jnull =>
              simp only [ht0] at h
              exact Or.inr (Or.inr (Or.inr (Or.inr (Or.inr (Or.inl
                ((Except.ok.inj h).symm))))))
            | jbool b =>
              simp only [ht0] at h
              exact Or.inr (Or.inr (Or.inr (Or.inr (Or.inr (Or.inl
                ((Except.ok.inj h).symm))))))
            | jnum n =>
              simp only [ht0] at h
              exact Or.inr (Or.inr (Or.inr (Or.inr (Or.inr (Or.inl
                ((Except.ok.inj h).symm))))))
            | jarr l =>
              simp only [ht0] at h
              exact Or.inr (Or.inr (Or.inr (Or.inr (Or.inr (Or.inl
                ((Except.ok.inj h).symm))))))
            | jobj l2 =>
              simp only [ht0] at h
              exact Or.inr (Or.inr (Or.inr (Or.inr (Or.inr (Or.inl
                ((Except.ok.inj h).symm))))))
        · have c3f : matchesUseridRe u = false := by
            revert c3; cases matchesUseridRe u <;> simp
          rw [if_pos (by simp [c3f])] at h
          exact Or.inr (Or.inr (Or.inr (Or.inl ⟨u, rfl, c3f, (Except.ok.inj h).symm⟩)))
      | jnull =>
        simp only [hu0] at h
        exact Or.inr (Or.inr (Or.inl ((Except.ok.inj h).symm)))
      | jbool b =>
        simp only [hu0] at h
        exact Or.inr (Or.inr (Or.inl ((Except.ok.inj h).symm)))
      | jnum n =>
        simp only [hu0] at h
        exact Or.inr (Or.inr (Or.inl ((Except.ok.inj h).symm)))
      | jarr l =>
        simp only [hu0] at h
        exact Or.inr (Or.inr (Or.inl ((Except.ok.inj h).symm)))
      | jobj l2 =>
        simp only [hu0] at h
        exact Or.inr (Or.inr (Or.inl ((Except.ok.inj h).symm)))
    · have c2f : codeTypeOk (jGetD pl "type") = false := by
        revert c2; cases codeTypeOk (jGetD pl "type") <;> simp
      rw [if_pos (by simp [c2f])] at h
      exact Or.inr (Or.inl (Except.ok.inj h).symm)
  · rw [if_pos c1] at h
    exact Or.inl ⟨c1, (Except.ok.inj h).symm⟩

/-! ## Claim C2 -/

/-- C2 counterexample: on the input with timestamp month 13 the handler
message is invalid timestamp value, not invalid timestamp format as the claim
states, because the format regex counts digits only and accepts 13. -/
theorem C2_regex_passes_counterexample :
    matchesTsRe "2025-13-01 05:00:00" = true ∧
    Except.map bodyMessage (recieve_logonlogoff jlNone gpTest putOkTest evC2) =
      Except.ok (some "invalid timestamp value") ∧
    "invalid timestamp value" ≠ "invalid timestamp format" :=
  ⟨rfl, rfl, by decide⟩

/-- C2 (amended): for the input (type logon, userid user001, timestamp
2025-13-01 05:00:00) the handler returns status 400 with message invalid
timestamp value: the timestamp-format regex passes (it constrains digit
counts only) and the calendar-validity check then fails, whatever the
collaborators do. -/
theorem C2_month13_rejected :
    ∀ (jl : String → Option JVal) (gp : String → Except String String)
      (put : String → String → JVal → Except String Unit),
      recieve_logonlogoff jl gp put evC2 =
        Except.ok ⟨400, JVal.jobj [("message", JVal.jstr "invalid timestamp value"),
          ("expected", JVal.jstr "YYYY-MM-DD HH:MM:SS"),
          ("error", JVal.jstr "time data does not match format")]⟩ :=
  fun _ _ _ => rfl

/-! ## Claim C5 -/

/-- C5: whenever any of type, userid, timestamp is absent, null or the empty
string, the handler answers 400 with message missing required fields and the
aggregated list of exactly the missing keys, independently of the
collaborators, and no later rule is reached. -/
theorem C5_missing_fields_aggregate :
    ∀ (pl : List (String × JVal)) (gp : String → Except String String)
      (put : String → String → JVal → Except String Unit),
      missingKeysOf pl ≠ [] →
      validate_and_store gp put (JVal.jobj pl) =
        Except.ok ⟨400, JVal.jobj [("message", JVal.jstr "missing required fields"),
          ("missing", JVal.jarr ((missingKeysOf pl).map JVal.jstr))]⟩ ∧
      ∀ k, k ∈ missingKeysOf pl ↔
        (k ∈ (["type", "userid", "timestamp"] : List String) ∧
          isMissingVal (jGetD pl k) = true) := by
  intro pl gp put hm
  constructor
  · simp only [validate_and_store]
    rw [if_pos hm]
    rfl
  · intro k
    simp [missingKeysOf, List.mem_filter]

/-- C5 witness: a payload carrying only the type field is rejected listing
userid and timestamp. -/
theorem C5_missing_fields_aggregate_witness :
    validate_and_store gpTest putOkTest (JVal.jobj [("type", JVal.jstr "logon")]) =
      Except.ok ⟨400, JVal.jobj [("message", JVal.jstr "missing required fields"),
        ("missing", JVal.jarr [JVal.jstr "userid", JVal.jstr "timestamp"])]⟩ :=
  (C5_missing_fields_aggregate [("type", JVal.jstr "logon")] gpTest putOkTest
    (by decide)).1

/-! ## Claim C8 -/

/-- C8: a userid accepted by the charset regex is 1 to 15 ASCII alphanumeric
characters, each one UTF-8 byte, so its encoded length is at most 15 and the
byte-length rejection branch is unreachable: no run of the handler ever
reports invalid userid length. -/
theorem C8_bytelen_redundant :
    (∀ u : String, matchesUseridRe u = true → utf8ByteLen u ≤ 15) ∧
    (∀ (pl : List (String × JVal)) (gp : String → Except String String)
       (put : String → String → JVal → Except String Unit) (r : Resp),
      validate_and_store gp put (JVal.jobj pl) = Except.ok r →
      bodyMessage r ≠ some "invalid userid length") := by
  constructor
  · exact fun u h => utf8ByteLen_userid h
  · intro pl gp put r h
    rcases run_cases h with ⟨_, rfl⟩ | rfl | rfl | ⟨u, _, _, rfl⟩ |
      ⟨u, _, hre, hlen, _⟩ | rfl | ⟨ts, _, rfl⟩ | ⟨e, rfl⟩ | ⟨e, rfl⟩ |
      ⟨bkt, key, date, rfl⟩ <;>
      first
        | exact absurd hlen (by have := utf8ByteLen_userid hre; omega)
        | simp [bodyMessage, bodyLookup, jLookup]

/-- C8 witness: the charset bound applied to the concrete userid user001. -/
theorem C8_bytelen_redundant_witness : utf8ByteLen "user001" ≤ 15 :=
  C8_bytelen_redundant.1 "user001" (by decide)

/-! ## Claim C9 -/

/-- C9: when the event body is a string that json.loads parses to a value
that is not a dict, extraction returns that value unchanged and the
subsequent payload.get raises AttributeError, so the handler produces no
statusCode/body response at all. -/
theorem C9_nonmapping_body_uncaught :
    ∀ (jl : String → Option JVal) (gp : String → Except String String)
      (put : String → String → JVal → Except String Unit)
      (ev : List (String × JVal)) (s : String) (v : JVal),
      jLookup ev "body" = some (JVal.jstr s) → jl s = some v →
      (∀ m : List (String × JVal), v ≠ JVal.jobj m) →
      parse_event_payload jl (some (JVal.jobj ev)) = Except.ok v ∧
      recieve_logonlogoff jl gp put (some (JVal.jobj ev)) =
        Except.error attrGetError := by
  intro jl gp put ev s v hb hj hnm
  have hp : parse_event_payload jl (some (JVal.jobj ev)) = Except.ok v := by
    simp only [parse_event_payload, hb, hj]
    rfl
  refine ⟨hp, ?_⟩
  unfold recieve_logonlogoff
  rw [hp]
  simp only [bind_ok_embed]
  cases v with
  | jobj m => exact absurd rfl (hnm m)
  | jnull => rfl
  | jbool b => rfl
  | jnum n => rfl
  | jstr s2 => rfl
  | jarr l => rfl

/-- C9 witness: the body string [1] parses to a one-element array and the
handler raises. -/
theorem C9_nonmapping_body_uncaught_witness :
    parse_event_payload jlArr (some (JVal.jobj [("body", JVal.jstr "[1]")])) =
      Except.ok (JVal.jarr [JVal.jnum 1]) ∧
    recieve_logonlogoff jlArr gpTest putOkTest
      (some (JVal.jobj [("body", JVal.jstr "[1]")])) = Except.error attrGetError :=
  C9_nonmapping_body_uncaught jlArr gpTest putOkTest [("body", JVal.jstr "[1]")]
    "[1]" (JVal.jarr [JVal.jnum 1]) rfl rfl (fun _ h => JVal.noConfusion h)

/-! ## Claim C10 -/

/-- C10: for a payload passing all validation, an error from the parameter
store lookup of the key prefix, or of the bucket name, propagates out of the
handler uncaught instead of becoming a 400 or 500 response; only the S3 put
itself is guarded by the 500 branch. -/
theorem C10_config_errors_uncaught :
    (∀ (gp : String → Except String String)
       (put : String → String → JVal → Except String Unit) (u t ts d e : String),
      (t = "logon" ∨ t = "logoff") → matchesUseridRe u = true →
      matchesTsRe ts = true → compute_base_date_str ts = Except.ok d →
      gp "/logonlogoff/prefixkey" = Except.error e →
      validate_and_store gp put (payloadOf u t ts) = Except.error e) ∧
    (∀ (gp : String → Except String String)
       (put : String → String → JVal → Except String Unit) (u t ts d pfx e : String),
      (t = "logon" ∨ t = "logoff") → matchesUseridRe u = true →
      matchesTsRe ts = true → compute_base_date_str ts = Except.ok d →
      gp "/logonlogoff/prefixkey" = Except.ok pfx →
      gp "/logonlogoff/s3bucket" = Except.error e →
      validate_and_store gp put (payloadOf u t ts) = Except.error e) := by
  constructor
  · intro gp put u t ts d e ht hu hts hd hgp
    rw [valid_run ht hu hts hd gp put]
    exact persist_gp_error1 hgp
  · intro gp put u t ts d pfx e ht hu hts hd hgp1 hgp2
    rw [valid_run ht hu hts hd gp put]
    exact persist_gp_error2 hgp1 hgp2

/-- C10 witness: a failing parameter store makes the handler raise for an
otherwise fully valid record. -/
theorem C10_config_errors_uncaught_witness :
    validate_and_store gpFail putOkTest
      (payloadOf "user001" "logon" "2025-01-01 05:00:00") = Except.error "boom" :=
  C10_config_errors_uncaught.1 gpFail putOkTest "user001" "logon"
    "2025-01-01 05:00:00" "20250101" "boom" (Or.inl rfl) (by decide) (by decide)
    rfl rfl

/-! ## Helper lemmas: key injectivity -/

theorem compute_len {ts d : String} (h : compute_base_date_str ts = Except.ok d) :
    d.data.length = 8 := by
  unfold compute_base_date_str at h
  cases hp : parseTimestamp ts with
  | none =>
    simp only [hp] at h
    exact absurd h (by simp)
  | some dt =>
    simp only [hp] at h
    split at h
    · cases hq : prevDay dt.year dt.month dt.day with
      | none =>
        simp only [hq] at h
        exact absurd h (by simp)
      | some triple =>
        obtain ⟨py, pm, pd⟩ := triple
        simp only [hq] at h
        have := Except.ok.inj h
        subst this
        simp [fmtYMD, pad4, pad2]
    · have := Except.ok.inj h
      subst this
      simp [fmtYMD, pad4, pad2]

theorem safeChar_tsCharOk {i : Nat} {c1 c2 : Char} (h1 : tsCharOk i c1 = true)
    (h2 : tsCharOk i c2 = true) (he : safeChar c1 = safeChar c2) : c1 = c2 := by
  unfold tsCharOk at h1 h2
  by_cases hi1 : i = 4 ∨ i = 7
  · rw [if_pos hi1] at h1 h2
    rw [beq_iff_eq] at h1 h2
    rw [h1, h2]
  · rw [if_neg hi1] at h1 h2
    by_cases hi2 : i = 10
    · rw [if_pos hi2] at h1 h2
      rw [beq_iff_eq] at h1 h2
      rw [h1, h2]
    · rw [if_neg hi2] at h1 h2
      by_cases hi3 : i = 13 ∨ i = 16
      · rw [if_pos hi3] at h1 h2
        rw [beq_iff_eq] at h1 h2
        rw [h1, h2]
      · rw [if_neg hi3] at h1 h2
        rw [safeChar_digit h1, safeChar_digit h2] at he
        exact he

theorem map_eq_pointwise {α β : Type} (f : α → β) :
    ∀ (l1 l2 : List α), l1.map f = l2.map f →
      l1.length = l2.length ∧
      ∀ (i : Nat) (hi1 : i < l1.length) (hi2 : i < l2.length),
        f (l1.get ⟨i, hi1⟩) = f (l2.get ⟨i, hi2⟩) := by
  intro l1
  induction l1 with
  | nil =>
    intro l2 h
    cases l2 with
    | nil => exact ⟨rfl, fun i hi1 _ => absurd hi1 (by simp)⟩
    | cons b bs => exact absurd h (by simp)
  | cons a as ih =>
    intro l2 h
    cases l2 with
    | nil => exact absurd h (by simp)
    | cons b bs =>
      simp only [List.map_cons, List.cons.injEq] at h
      obtain ⟨hab, hrest⟩ := h
      obtain ⟨hlen, hpt⟩ := ih bs hrest
      refine ⟨by simp [hlen], fun i hi1 hi2 => ?_⟩
      cases i with
      | zero => exact hab
      | succ j => exact hpt j (by simpa using hi1) (by simpa using hi2)

theorem safeTs_inj {a b : String} (ha : matchesTsRe a = true)
    (hb : matchesTsRe b = true) (h : safeTs a = safeTs b) : a = b := by
  obtain ⟨hal, hap⟩ := matchesTsRe_spec ha
  obtain ⟨hbl, hbp⟩ := matchesTsRe_spec hb
  have hd : a.data.map safeChar = b.data.map safeChar := congrArg String.data h
  obtain ⟨_, hpt⟩ := map_eq_pointwise safeChar a.data b.data hd
  apply String.ext
  apply List.ext_get (by omega)
  intro i h1 h2
  exact safeChar_tsCharOk (hap i h1) (hbp i h2) (hpt i h1 h2)

theorem append_underscore_inj :
    ∀ (u1 u2 t1 t2 : List Char), '_' ∉ u1 → '_' ∉ u2 →
      u1 ++ '_' :: t1 = u2 ++ '_' :: t2 → u1 = u2 ∧ t1 = t2 := by
  intro u1
  induction u1 with
  | nil =>
    intro u2 t1 t2 _ h2 h
    cases u2 with
    | nil => simpa using h
    | cons b bs =>
      simp only [List.nil_append, List.cons_append] at h
      obtain ⟨hb, _⟩ := List.cons.inj h
      cases hb
      exact absurd (List.mem_cons_self _ _) h2
  | cons a as ih =>
    intro u2 t1 t2 h1 h2 h
    cases u2 with
    | nil =>
      simp only [List.cons_append, List.nil_append] at h
      obtain ⟨hb, _⟩ := List.cons.inj h
      cases hb
      exact absurd (List.mem_cons_self _ _) h1
    | cons b bs =>
      simp only [List.cons_append] at h
      obtain ⟨hab, hrest⟩ := List.cons.inj h
      subst hab
      obtain ⟨hu, ht⟩ := ih bs t1 t2
        (fun hm => h1 (List.mem_cons_of_mem _ hm))
        (fun hm => h2 (List.mem_cons_of_mem _ hm)) hrest
      exact ⟨by rw [hu], ht⟩

theorem safeTs_data_length {ts : String} (h : matchesTsRe ts = true) :
    (safeTs ts).data.length = 19 := by
  have h19 := (matchesTsRe_spec h).1
  show (ts.data.map safeChar).length = 19
  rw [List.length_map]
  exact h19

theorem userid_data_no_underscore {u : String} (h : matchesUseridRe u = true) :
    '_' ∉ u.data := userid_no_underscore h

theorem mkKey_inj {pfx u1 t1 ts1 d1 u2 t2 ts2 d2 : String}
    (hu1 : matchesUseridRe u1 = true) (ht1 : t1 = "logon" ∨ t1 = "logoff")
    (hts1 : matchesTsRe ts1 = true) (hd1 : compute_base_date_str ts1 = Except.ok d1)
    (hu2 : matchesUseridRe u2 = true) (ht2 : t2 = "logon" ∨ t2 = "logoff")
    (hts2 : matchesTsRe ts2 = true) (hd2 : compute_base_date_str ts2 = Except.ok d2)
    (hk : mkKey pfx d1 u1 t1 ts1 = mkKey pfx d2 u2 t2 ts2) :
    u1 = u2 ∧ t1 = t2 ∧ ts1 = ts2 := by
  have hkd := congrArg String.data hk
  have hdate : ("/date=" : String).data = ['/', 'd', 'a', 't', 'e', '='] := rfl
  have hsl : ("/" : String).data = ['/'] := rfl
  have hus : ("_" : String).data = ['_'] := rfl
  have hjs : (".json" : String).data = ['.', 'j', 's', 'o', 'n'] := rfl
  simp only [mkKey, String.data_append, hdate, hsl, hus, hjs, List.append_assoc,
    List.cons_append, List.nil_append] at hkd
  have hkd2 := List.append_cancel_left hkd
  simp only [List.cons.injEq, true_and] at hkd2
  obtain ⟨hd12, hkd3⟩ := List.append_inj hkd2
    (by rw [compute_len hd1, compute_len hd2])
  simp only [List.cons.injEq, true_and] at hkd3
  have hnt1 : '_' ∉ t1.data := by rcases ht1 with rfl | rfl <;> decide
  have hnt2 : '_' ∉ t2.data := by rcases ht2 with rfl | rfl <;> decide
  obtain ⟨huu, hkd4⟩ := append_underscore_inj u1.data u2.data _ _
    (userid_data_no_underscore hu1) (userid_data_no_underscore hu2) hkd3
  obtain ⟨htt, hkd5⟩ := append_underscore_inj t1.data t2.data _ _ hnt1 hnt2 hkd4
  obtain ⟨hss, _⟩ := List.append_inj hkd5
    (by rw [safeTs_data_length hts1, safeTs_data_length hts2])
  exact ⟨String.ext huu, String.ext htt, safeTs_inj hts1 hts2 (String.ext hss)⟩

theorem rejection_status {pl : List (String × JVal)} {r : Resp}
    (h : rejectionOf (JVal.jobj pl) = some r) : r.statusCode = 400 := by
  simp only [rejectionOf] at h
  (repeat' split at h) <;>
    first
      | (cases Option.some.inj h; rfl)
      | exact absurd h (by simp)

/-! ## Claim C3 -/

/-- C3: a fully validated record is stored under exactly the key
prefix/date=DATE/userid_type_safeTimestamp.json, where the safe timestamp
replaces the space by T and both colons by hyphens; and for a fixed prefix
the key determines the (userid, type, timestamp) tuple of validated
inputs. -/
theorem C3_storage_key_template_injective :
    (∀ (gp : String → Except String String)
       (put : String → String → JVal → Except String Unit) (u t ts d pfx bkt : String),
      (t = "logon" ∨ t = "logoff") → matchesUseridRe u = true →
      matchesTsRe ts = true → compute_base_date_str ts = Except.ok d →
      gp "/logonlogoff/prefixkey" = Except.ok pfx →
      gp "/logonlogoff/s3bucket" = Except.ok bkt →
      put bkt (mkKey pfx d u t ts) (dataOf u t ts) = Except.ok () →
      validate_and_store gp put (payloadOf u t ts) =
        Except.ok ⟨200, JVal.jobj [("bucket", JVal.jstr bkt),
          ("key", JVal.jstr (pfx ++ "/date=" ++ d ++ "/" ++ u ++ "_" ++ t ++ "_" ++
            safeTs ts ++ ".json")),
          ("date", JVal.jstr d)]⟩) ∧
    (∀ pfx u1 t1 ts1 d1 u2 t2 ts2 d2 : String,
      matchesUseridRe u1 = true → (t1 = "logon" ∨ t1 = "logoff") →
      matchesTsRe ts1 = true → compute_base_date_str ts1 = Except.ok d1 →
      matchesUseridRe u2 = true → (t2 = "logon" ∨ t2 = "logoff") →
      matchesTsRe ts2 = true → compute_base_date_str ts2 = Except.ok d2 →
      mkKey pfx d1 u1 t1 ts1 = mkKey pfx d2 u2 t2 ts2 →
      u1 = u2 ∧ t1 = t2 ∧ ts1 = ts2) := by
  constructor
  · intro gp put u t ts d pfx bkt ht hu hts hd hgp1 hgp2 hput
    rw [valid_run ht hu hts hd gp put, persist_run hgp1 hgp2, hput]
    rfl
  · intro pfx u1 t1 ts1 d1 u2 t2 ts2 d2 hu1 ht1 hts1 hd1 hu2 ht2 hts2 hd2 hk
    exact mkKey_inj hu1 ht1 hts1 hd1 hu2 ht2 hts2 hd2 hk

/-- C3 witness: the scenario-one record is stored under the fully expanded
template key. -/
theorem C3_storage_key_template_injective_witness :
    validate_and_store gpParams putOkTest
      (payloadOf "user001" "logon" "2025-01-01 05:00:00") =
      Except.ok ⟨200, JVal.jobj [("bucket", JVal.jstr "bkt"),
        ("key", JVal.jstr "pre/date=20250101/user001_logon_2025-01-01T05-00-00.json"),
        ("date", JVal.jstr "20250101")]⟩ :=
  C3_storage_key_template_injective.1 gpParams putOkTest "user001" "logon"
    "2025-01-01 05:00:00" "20250101" "pre" "bkt" (Or.inl rfl) (by decide)
    (by decide) rfl rfl rfl rfl

/-! ## Claim C7 -/

/-- C7: the S3 write happens only after all eight validation rules pass — on
any validation failure the handler's answer is a 400 response that is
completely independent of both collaborators, so no side effect can occur —
and when the write raises the handler answers 500 with the failure message
and the underlying error text, while a successful write yields 200 with
bucket, key and date. -/
theorem C7_persistence_contract :
    (∀ (pl : List (String × JVal)) (r : Resp),
      rejectionOf (JVal.jobj pl) = some r →
      r.statusCode = 400 ∧
      ∀ (gp gp2 : String → Except String String)
        (put put2 : String → String → JVal → Except String Unit),
        validate_and_store gp put (JVal.jobj pl) = Except.ok r ∧
        validate_and_store gp put (JVal.jobj pl) =
          validate_and_store gp2 put2 (JVal.jobj pl)) ∧
    (∀ (gp : String → Except String String)
       (put : String → String → JVal → Except String Unit)
       (u t ts d pfx bkt e : String),
      (t = "logon" ∨ t = "logoff") → matchesUseridRe u = true →
      matchesTsRe ts = true → compute_base_date_str ts = Except.ok d →
      gp "/logonlogoff/prefixkey" = Except.ok pfx →
      gp "/logonlogoff/s3bucket" = Except.ok bkt →
      put bkt (mkKey pfx d u t ts) (dataOf u t ts) = Except.error e →
      validate_and_store gp put (payloadOf u t ts) =
        Except.ok ⟨500, JVal.jobj
          [("message", JVal.jstr "failed to put object to S3"),
           ("error", JVal.jstr e)]⟩) ∧
    (∀ (gp : String → Except String String)
       (put : String → String → JVal → Except String Unit)
       (u t ts d pfx bkt : String),
      (t = "logon" ∨ t = "logoff") → matchesUseridRe u = true →
      matchesTsRe ts = true → compute_base_date_str ts = Except.ok d →
      gp "/logonlogoff/prefixkey" = Except.ok pfx →
      gp "/logonlogoff/s3bucket" = Except.ok bkt →
      put bkt (mkKey pfx d u t ts) (dataOf u t ts) = Except.ok () →
      validate_and_store gp put (payloadOf u t ts) =
        Except.ok ⟨200, JVal.jobj [("bucket", JVal.jstr bkt),
          ("key", JVal.jstr (mkKey pfx d u t ts)),
          ("date", JVal.jstr d)]⟩) := by
  refine ⟨?_, ?_, ?_⟩
  · intro pl r h
    refine ⟨rejection_status h, fun gp gp2 put put2 => ?_⟩
    have h1 := rejection_run h gp put
    have h2 := rejection_run h gp2 put2
    exact ⟨h1, h1.trans h2.symm⟩
  · intro gp put u t ts d pfx bkt e ht hu hts hd hgp1 hgp2 hput
    rw [valid_run ht hu hts hd gp put, persist_run hgp1 hgp2, hput]
  · intro gp put u t ts d pfx bkt ht hu hts hd hgp1 hgp2 hput
    rw [valid_run ht hu hts hd gp put, persist_run hgp1 hgp2, hput]

/-- C7 witness: a failing S3 put on the fully valid scenario record yields
the 500 response with the underlying error text. -/
theorem C7_persistence_contract_witness :
    validate_and_store gpParams putFail
      (payloadOf "user001" "logon" "2025-01-01 05:00:00") =
      Except.ok ⟨500, JVal.jobj
        [("message", JVal.jstr "failed to put object to S3"),
         ("error", JVal.jstr "S3 down")]⟩ :=
  C7_persistence_contract.2.1 gpParams putFail "user001" "logon"
    "2025-01-01 05:00:00" "20250101" "pre" "bkt" "S3 down" (Or.inl rfl)
    (by decide) (by decide) rfl rfl rfl rfl

/-! ## Helper lemmas: the spec-side validator -/

theorem codeTypeOk_eq_specTypeOk (v : JVal) : codeTypeOk v = specTypeOk v := by
  have h1 : codeTypeOk v = true ↔ specTypeOk v = true := by
    unfold codeTypeOk
    constructor
    · intro h
      rw [Bool.or_eq_true, beq_iff_eq, beq_iff_eq] at h
      rcases (pyStr_enum_iff v).mp h with rfl | rfl <;> rfl
    · intro h
      cases v with
      | jstr s =>
        simp only [specTypeOk] at h
        rw [Bool.or_eq_true, beq_iff_eq, beq_iff_eq] at h
        show (s == "logon" || s == "logoff") = true
        rcases h with rfl | rfl <;> rfl
      | jnull => exact absurd h (by decide)
      | jbool b => exact absurd h (by simp [specTypeOk])
      | jnum n => exact absurd h (by simp [specTypeOk])
      | jarr l => exact absurd h (by simp [specTypeOk])
      | jobj l => exact absurd h (by simp [specTypeOk])
  by_cases hcv : codeTypeOk v = true
  · rw [hcv, h1.mp hcv]
  · have hc2 : codeTypeOk v = false := by revert hcv; cases codeTypeOk v <;> simp
    have hs2 : specTypeOk v = false := by
      by_cases hsv : specTypeOk v = true
      · exact absurd (h1.mpr hsv) hcv
      · revert hsv; cases specTypeOk v <;> simp
    rw [hc2, hs2]

theorem compute_error_of_parse_none {ts : String} (h : parseTimestamp ts = none) :
    compute_base_date_str ts = Except.error "time data does not match format" := by
  unfold compute_base_date_str
  rw [h]

theorem rejection_matches_spec {pl : List (String × JVal)} {msg : String}
    (hmiss : missingKeysOf pl = [])
    (hspec : specFirstMsg (jGetD pl "type") (jGetD pl "userid")
      (jGetD pl "timestamp") = some msg) :
    ∃ bl, rejectionOf (JVal.jobj pl) = some ⟨400, JVal.jobj bl⟩ ∧
      jLookup bl "message" = some (JVal.jstr msg) := by
  unfold specFirstMsg at hspec
  simp only [rejectionOf]
  rw [if_neg (by simp [hmiss])]
  by_cases c2 : specTypeOk (jGetD pl "type") = true
  · rw [if_neg (by simp [codeTypeOk_eq_specTypeOk, c2])]
    rw [if_neg (by simp [c2])] at hspec
    cases hu0 : jGetD pl "userid" with
    | jstr u =>
      simp only [hu0] at hspec ⊢
      by_cases c3 : matchesUseridRe u = true
      · rw [if_neg (by simp [c3])] at hspec ⊢
        by_cases c4 : utf8ByteLen u > 15
        · rw [if_pos c4] at hspec ⊢
          exact ⟨_, rfl, by rw [Option.some.inj hspec]; rfl⟩
        · rw [if_neg c4] at hspec ⊢
          cases ht0 : jGetD pl "timestamp" with
          | jstr ts =>
            simp only [ht0] at hspec ⊢
            by_cases c5 : matchesTsRe ts = true
            · rw [if_neg (by simp [c5])] at hspec ⊢
              cases hps : parseTimestamp ts with
              | none =>
                rw [compute_error_of_parse_none hps]
                rw [if_pos (by simp [hps])] at hspec
                exact ⟨_, rfl, by rw [Option.some.inj hspec]; rfl⟩
              | some dt =>
                rw [if_neg (by simp [hps])] at hspec
                exact absurd hspec (by simp)
            · have c5f : matchesTsRe ts = false := by
                revert c5; cases matchesTsRe ts <;> simp
              rw [if_pos (by simp [c5f])] at hspec ⊢
              exact ⟨_, rfl, by rw [Option.some.inj hspec]; rfl⟩
          | jnull =>
            simp only [ht0] at hspec ⊢
            exact ⟨_, rfl, by rw [Option.some.inj hspec]; rfl⟩
          | jbool b =>
            simp only [ht0] at hspec ⊢
            exact ⟨_, rfl, by rw [Option.some.inj hspec]; rfl⟩
          | jnum n =>
            simp only [ht0] at hspec ⊢
            exact ⟨_, rfl, by rw [Option.some.inj hspec]; rfl⟩
          | jarr l =>
            simp only [ht0] at hspec ⊢
            exact ⟨_, rfl, by rw [Option.some.inj hspec]; rfl⟩
          | jobj l2 =>
            simp only [ht0] at hspec ⊢
            exact ⟨_, rfl, by rw [Option.some.inj hspec]; rfl⟩
      · have c3f : matchesUseridRe u = false := by
          revert c3; cases matchesUseridRe u <;> simp
        rw [if_pos (by simp [c3f])] at hspec ⊢
        exact ⟨_, rfl, by rw [Option.some.inj hspec]; rfl⟩
    | jnull =>
      simp only [hu0] at hspec ⊢
      exact ⟨_, rfl, by rw [Option.some.inj hspec]; rfl⟩
    | jbool b =>
      simp only [hu0] at hspec ⊢
      exact ⟨_, rfl, by rw [Option.some.inj hspec]; rfl⟩
    | jnum n =>
      simp only [hu0] at hspec ⊢
      exact ⟨_, rfl, by rw [Option.some.inj hspec]; rfl⟩
    | jarr l =>
      simp only [hu0] at hspec ⊢
      exact ⟨_, rfl, by rw [Option.some.inj hspec]; rfl⟩
    | jobj l2 =>
      simp only [hu0] at hspec ⊢
      exact ⟨_, rfl, by rw [Option.some.inj hspec]; rfl⟩
  · have c2f : specTypeOk (jGetD pl "type") = false := by
      revert c2; cases specTypeOk (jGetD pl "type") <;> simp
    rw [if_pos (by simp [codeTypeOk_eq_specTypeOk, c2f])]
    rw [if_pos (by simp [c2f])] at hspec
    exact ⟨_, rfl, by rw [Option.some.inj hspec]; rfl⟩

/-! ## Claim C4 -/

/-- C4: for any extracted payload that passes the presence rule but violates
one or more of the later rules, the single reported rejection is a 400 whose
message is the one of the earliest violated rule in the fixed spec order
(type enum, userid type, userid charset, userid byte length, timestamp type,
timestamp format, timestamp validity), as computed by the spec-side
specFirstMsg, for every choice of collaborators. -/
theorem C4_first_rule_wins :
    ∀ (pl : List (String × JVal)) (msg : String),
      missingKeysOf pl = [] →
      specFirstMsg (jGetD pl "type") (jGetD pl "userid") (jGetD pl "timestamp") =
        some msg →
      ∀ (gp : String → Except String String)
        (put : String → String → JVal → Except String Unit),
        ∃ bl, validate_and_store gp put (JVal.jobj pl) =
            Except.ok ⟨400, JVal.jobj bl⟩ ∧
          jLookup bl "message" = some (JVal.jstr msg) := by
  intro pl msg hmiss hspec gp put
  obtain ⟨bl, hrej, hlook⟩ := rejection_matches_spec hmiss hspec
  exact ⟨bl, rejection_run hrej gp put, hlook⟩

/-- C4 witness: a payload violating the type enum, the userid type and the
timestamp format at once is rejected with the earliest message, invalid
type. -/
theorem C4_first_rule_wins_witness :
    ∃ bl, validate_and_store gpTest putOkTest
        (JVal.jobj [("type", JVal.jstr "walk"), ("userid", JVal.jnum 5),
          ("timestamp", JVal.jstr "nope")]) =
        Except.ok ⟨400, JVal.jobj bl⟩ ∧
      jLookup bl "message" = some (JVal.jstr "invalid type") :=
  C4_first_rule_wins [("type", JVal.jstr "walk"), ("userid", JVal.jnum 5),
    ("timestamp", JVal.jstr "nope")] "invalid type" (by decide) rfl gpTest putOkTest

/-! ## Claim C6 -/

/-- C6 counterexample: the rejection of the timestamp-validity rule carries
message, expected and error fields but no value field, contradicting the
claim that every rule's rejection holds the original offending value. -/
theorem C6_no_value_counterexample :
    validate_and_store gpTest putOkTest
      (payloadOf "user001" "logon" "2025-02-30 10:00:00") =
      Except.ok ⟨400, JVal.jobj [("message", JVal.jstr "invalid timestamp value"),
        ("expected", JVal.jstr "YYYY-MM-DD HH:MM:SS"),
        ("error", JVal.jstr "time data does not match format")]⟩ ∧
    jLookup [("message", JVal.jstr "invalid timestamp value"),
      ("expected", JVal.jstr "YYYY-MM-DD HH:MM:SS"),
      ("error", JVal.jstr "time data does not match format")] "value" = none :=
  ⟨rfl, rfl⟩

/-- C6 (amended): every validation failure is a 400 whose body holds a
message field; the six rules invalid type, invalid userid type, invalid
userid, invalid userid length, invalid timestamp type and invalid timestamp
format also hold a value field with the original offending value, while the
presence rejection carries the missing list and the timestamp-validity
rejection carries expected and error, neither with a value field. -/
theorem C6_rejection_shape :
    ∀ (pl : List (String × JVal)) (gp : String → Except String String)
      (put : String → String → JVal → Except String Unit) (r : Resp),
      validate_and_store gp put (JVal.jobj pl) = Except.ok r →
      r.statusCode = 400 →
      ∃ bl m, r.body = JVal.jobj bl ∧
        jLookup bl "message" = some (JVal.jstr m) ∧
        ((m ≠ "missing required fields" ∧ m ≠ "invalid timestamp value") →
          ∃ v, jLookup bl "value" = some v) ∧
        (m = "invalid type" → jLookup bl "value" = some (jGetD pl "type")) ∧
        ((m = "invalid userid type" ∨ m = "invalid userid" ∨
            m = "invalid userid length") →
          jLookup bl "value" = some (jGetD pl "userid")) ∧
        ((m = "invalid timestamp type" ∨ m = "invalid timestamp format") →
          jLookup bl "value" = some (jGetD pl "timestamp")) := by
  intro pl gp put r h h400
  rcases run_cases h with ⟨_, rfl⟩ | rfl | rfl | ⟨u, hu0, _, rfl⟩ |
    ⟨u, hu0, _, _, rfl⟩ | rfl | ⟨ts, ht0, rfl⟩ | ⟨e, rfl⟩ | ⟨e, rfl⟩ |
    ⟨bkt, key, date, rfl⟩
  · refine ⟨_, _, rfl, rfl, ?_, ?_, ?_, ?_⟩ <;> simp_all [jLookup]
  · refine ⟨_, _, rfl, rfl, ?_, ?_, ?_, ?_⟩ <;> simp_all [jLookup]
  · refine ⟨_, _, rfl, rfl, ?_, ?_, ?_, ?_⟩ <;> simp_all [jLookup]
  · refine ⟨_, _, rfl, rfl, ?_, ?_, ?_, ?_⟩ <;> simp_all [jLookup]
  · refine ⟨_, _, rfl, rfl, ?_, ?_, ?_, ?_⟩ <;> simp_all [jLookup]
  · refine ⟨_, _, rfl, rfl, ?_, ?_, ?_, ?_⟩ <;> simp_all [jLookup]
  · refine ⟨_, _, rfl, rfl, ?_, ?_, ?_, ?_⟩ <;> simp_all [jLookup]
  · refine ⟨_, _, rfl, rfl, ?_, ?_, ?_, ?_⟩ <;> simp_all [jLookup]
  · simp at h400
  · simp at h400

/-- C6 witness: the amended shape evaluated on a payload rejected by the type
enum rule, whose body carries message and the offending value walk. -/
theorem C6_rejection_shape_witness :
    ∃ bl m, (⟨400, JVal.jobj [("message", JVal.jstr "invalid type"),
        ("allowed", JVal.jarr [JVal.jstr "logon", JVal.jstr "logoff"]),
        ("value", JVal.jstr "walk")]⟩ : Resp).body = JVal.jobj bl ∧
      jLookup bl "message" = some (JVal.jstr m) ∧
      ((m ≠ "missing required fields" ∧ m ≠ "invalid timestamp value") →
        ∃ v, jLookup bl "value" = some v) ∧
      (m = "invalid type" → jLookup bl "value" =
        some (jGetD [("type", JVal.jstr "walk"), ("userid", JVal.jstr "user001"),
          ("timestamp", JVal.jstr "2025-01-01 05:00:00")] "type")) ∧
      ((m = "invalid userid type" ∨ m = "invalid userid" ∨
          m = "invalid userid length") →
        jLookup bl "value" =
          some (jGetD [("type", JVal.jstr "walk"), ("userid", JVal.jstr "user001"),
            ("timestamp", JVal.jstr "2025-01-01 05:00:00")] "userid")) ∧
      ((m = "invalid timestamp type" ∨ m = "invalid timestamp format") →
        jLookup bl "value" =
          some (jGetD [("type", JVal.jstr "walk"), ("userid", JVal.jstr "user001"),
            ("timestamp", JVal.jstr "2025-01-01 05:00:00")] "timestamp")) :=
  C6_rejection_shape [("type", JVal.jstr "walk"), ("userid", JVal.jstr "user001"),
    ("timestamp", JVal.jstr "2025-01-01 05:00:00")] gpTest putOkTest
    ⟨400, JVal.jobj [("message", JVal.jstr "invalid type"),
      ("allowed", JVal.jarr [JVal.jstr "logon", JVal.jstr "logoff"]),
      ("value", JVal.jstr "walk")]⟩ rfl rfl
